import Mathlib

/-!
Verification development for the targon-verifier-proxy repository: a shallow
embedding of its expiring verification cache and of its request-verification
pipeline, with theorems checking the specification's claims against the code.

Time is modelled as a `Nat` of nanoseconds (Go's `time.Time`/`time.Duration`
granularity); `time.Now()` becomes an explicit `now` parameter threaded through
the operations.  Byte strings (`[]byte`) are opaque `List Nat` values.
-/

/-- Go `[]byte`, kept opaque. -/
abbrev Bytes := List Nat

/-- `CacheEntry` from the config package: a cached serialized response together
with its absolute expiry instant. -/
structure CacheEntry where
  Response : Bytes
  ExpiresAt : Nat
  deriving Repr, DecidableEq

/-- The `cache map[string]CacheEntry` field of `VerificationCache`, embedded as
a map from keys to entries (`none` = key absent).  The `sync.RWMutex` guards
the map in Go; here each operation acts atomically on the whole map, which is
exactly what holding the lock for the operation's duration provides. -/
def CacheMap : Type := String → Option CacheEntry

/-- `NewVerificationCache`: the empty map. -/
def NewVerificationCache : CacheMap := fun _ => none

namespace VerificationCache

/-- `func (c *VerificationCache) Set(requestID string, response []byte, ttl time.Duration)`:
stores `CacheEntry{Response: response, ExpiresAt: time.Now().Add(ttl)}` under
`requestID`, overwriting any previous entry. -/
def Set (c : CacheMap) (now : Nat) (requestID : String) (response : Bytes)
    (ttl : Nat) : CacheMap :=
  fun k => if k = requestID then some ⟨response, now + ttl⟩ else c k

/-- `func (c *VerificationCache) Get(requestID string) ([]byte, bool)`:
returns `(nil, false)` when the key is absent, `(nil, false)` when
`time.Now().After(entry.ExpiresAt)` (that is, `entry.ExpiresAt < now` —
`After` is strict), and `(entry.Response, true)` otherwise.  The stale branch
also spawns a goroutine that deletes the entry; that deferred deletion touches
only the physical map, never the returned pair, and is not part of the value
this function models. -/
def Get (c : CacheMap) (now : Nat) (requestID : String) : Option Bytes × Bool :=
  match c requestID with
  | none => (none, false)
  | some entry =>
      if entry.ExpiresAt < now then (none, false)
      else (some entry.Response, true)

/-- `func (c *VerificationCache) Cleanup()`: deletes every entry with
`now.After(entry.ExpiresAt)`, i.e. `entry.ExpiresAt < now`, and keeps the
rest. -/
def Cleanup (c : CacheMap) (now : Nat) : CacheMap :=
  fun k =>
    match c k with
    | none => none
    | some entry => if entry.ExpiresAt < now then none else some entry

end VerificationCache

/-- A one-entry cache used for concrete evaluations. -/
def singleEntryCache (k : String) (e : CacheEntry) : CacheMap :=
  fun k' => if k' = k then some e else none

/-! ## The request-verification pipeline

The repository carries two divergent revisions of `routes.Verify` and its
helpers (`validateRequiredFields`, `validateAPIKey`, `forwardToValis`): one
routes the backend call by a request-path suffix and re-marshals a typed
response, the other routes by an `x-backend-server` header on a single
`/verify` endpoint and streams the raw backend body through verbatim.
`validateRequiredFields` and `validateAPIKey` are character-for-character
identical in the two revisions and are embedded once; the two `forwardToValis`
and `Verify` functions are embedded in the namespaces `PathVariant` and
`HeaderVariant`. -/

/-- A decoded JSON value, the embedding of a Go `interface{}` produced by
`encoding/json` (`nil`, `bool`, `float64`, `string`, `[]interface{}`,
`map[string]interface{}`).  Numbers are kept as `Int`: no claim computes with
a numeric field, the value is only stored or converted whole. -/
inductive JVal where
  | jnull
  | jbool (b : Bool)
  | jnum (x : Int)
  | jstr (s : String)
  | jarr (xs : List JVal)
  | jobj (fields : List (String × JVal))

/-- A Go `map[string]interface{}`, as an association list observed only
through `lookup` (first binding wins, mirroring a map's unique keys). -/
abbrev JMap := List (String × JVal)

/-- `shared.VerificationRequest`.  `Model`, `RequestType` and `RequestID` are
Go strings (a field absent from the JSON body decodes to `""`);
`RequestParams` and `RawChunks` are a nil-able map and slice, `none` = `nil`. -/
structure VerificationRequest where
  Model : String
  RequestType : String
  RequestParams : Option JMap
  RawChunks : Option (List JMap)
  RequestID : String

/-- `shared.VerificationResponse`.  `InputTokens` and `ResponseTokens` are
`interface{}` fields holding whatever the backend sent (`none` = Go `nil`,
the zero value, when the field was absent). -/
structure VerificationResponse where
  RequestID : String
  Verified : Bool
  Error : String
  Cause : String
  InputTokens : Option JVal
  ResponseTokens : Option JVal
  GPUs : Int

/-- `config.Environment` (only `Debug` and `HaproxyURL` are read by the
pipeline; `Debug` merely gates a log line). -/
structure Environment where
  Debug : Bool
  HaproxyURL : String
  AdminHotkey : String
  AdminKeyValue : String

/-- The `encoding/json` calls the pipeline makes, as an oracle: marshalling
and unmarshalling are external to the embedded code, so each call site is a
field (`none` models the error return). -/
structure JsonCodec where
  marshalReq : VerificationRequest → Option Bytes
  unmarshalMap : Bytes → Option JMap
  unmarshalResp : Bytes → Option VerificationResponse
  marshalResp : VerificationResponse → Option Bytes

/-- The HTTP client, as an oracle.  `newRequestOk url` models whether
`http.NewRequest` succeeds for the built URL; `call url headers body` models
`client.Do` followed by `io.ReadAll` collapsed into one step (`none` = either
the transport call or the body read failed — the code turns both into an
error return and no claim distinguishes their messages). -/
structure Transport where
  newRequestOk : String → Bool
  call : String → List (String × String) → Bytes → Option Bytes

/-- `validateRequiredFields`, identical in both revisions: the first field of
`model`, `request_type`, `request_params`, `raw_chunks` that is missing (the
Go checks are `== ""` for the two strings, `== nil` for the map and the
slice), paired with Go's `(missingField string, isMissing bool)` shape. -/
def validateRequiredFields (request : VerificationRequest) : String × Bool :=
  if request.Model = "" then ("model", true)
  else if request.RequestType = "" then ("request_type", true)
  else if request.RequestParams.isNone then ("request_params", true)
  else if request.RawChunks.isNone then ("raw_chunks", true)
  else ("", false)

/-- What `validateAPIKey` did: its Go return `(bool, error)` (`.ok hotkey` for
`(true, nil)`, `.error msg` for `(false, err)`), plus whether the key-store
query (`SELECT hotkey FROM api_keys WHERE key_value = ?`) was reached. -/
structure AuthOutcome where
  result : Except String String
  lookupPerformed : Bool
  deriving Repr

/-- Go `strings.Split(s, " ")` on the characters of `s`: cuts around every
single space, adjacent spaces give empty parts, and the empty string yields
one empty part (`strings.Split("", " ") = [""]`). -/
def goSplitSpace : List Char → List (List Char)
  | [] => [[]]
  | c :: rest =>
      if c = ' ' then [] :: goSplitSpace rest
      else
        match goSplitSpace rest with
        | r :: rs => (c :: r) :: rs
        | [] => [[c]]

/-- Go `strings.ToLower`, per character.  `Char.toLower` lowers only ASCII
letters where Go lowers all of Unicode, but the two can only disagree on a
lowercase result that contains a non-ASCII character, and the sole comparison
the code makes is against the ASCII `"bearer"` (no character outside `A`–`Z`
simple-lowercases to any of `b`, `e`, `a`, `r`). -/
def goToLower (s : List Char) : List Char := s.map Char.toLower

/-- `validateAPIKey`, identical in both revisions.  `lookupKey` is the
key-store oracle (`none` = no row or scan error).  An empty header is
rejected first; then the header is split on single spaces and accepted only
when it is exactly `[scheme, token]` with `scheme` lowercasing to `"bearer"`
(the Go test is `len(parts) != 2 || strings.ToLower(parts[0]) != "bearer"`).
The best-effort `UPDATE ... last_used_at` after a successful lookup is
log-only in the code and not modelled. -/
def validateAPIKey (lookupKey : String → Option String)
    (authHeader : String) : AuthOutcome :=
  if authHeader = "" then ⟨.error "authorization required", false⟩
  else
    match goSplitSpace authHeader.data with
    | [scheme, apiKey] =>
        if goToLower scheme = "bearer".data then
          match lookupKey (String.mk apiKey) with
          | none => ⟨.error "invalid API key", true⟩
          | some hotkey => ⟨.ok hotkey, true⟩
        else ⟨.error "invalid authorization format", false⟩
    | _ => ⟨.error "invalid authorization format", false⟩

/-- A Go map assignment `m[k] = v`: the new binding shadows any old one (the
map is only ever read through `lookup`, for which prepending is exactly
update-or-insert). -/
def mapSet (m : JMap) (k : String) (v : JVal) : JMap :=
  (k, v) :: m

/-- What a forwarding call produced: its Go `(T, error)` return, plus whether
`client.Do` was reached (the one network call of the pipeline). -/
structure ForwardOutcome (α : Type) where
  result : Except String α
  backendCalled : Bool

/-- The body a `Verify` handler writes: the error envelope
`map{"verified": false, "error": msg}` (its `verified` is always the literal
`false`, so only the message varies), a typed response via `c.JSON`, or raw
bytes via `c.JSONBlob`. -/
inductive RespBody where
  | errJson (msg : String)
  | respObj (r : VerificationResponse)
  | blob (b : Bytes)

/-- The HTTP reply a `Verify` handler produces. -/
structure HttpReply where
  status : Nat
  body : RespBody

/-- One run of a `Verify` handler: the reply, whether the backend was called,
whether the cache was written, and the cache state the handler leaves. -/
structure VerifyOutcome where
  reply : HttpReply
  backendCalled : Bool
  cacheWritten : Bool
  cache : CacheMap

/-- `time.Minute` in nanoseconds. -/
def Minute : Nat := 60 * 1000 * 1000 * 1000

namespace PathVariant

/-- `forwardToValis`, path-suffix revision: marshal the request; route
`deepseek-ai/DeepSeek-R1 ↦ /r1/verify`, `deepseek-ai/DeepSeek-V3 ↦ /v3/verify`,
anything else is `unsupported model` before any network call; POST to
`HaproxyURL + path`; unmarshal the reply into a map; if `verified` is absent,
assign `verified = false` and a synthesized `error` into the map; then probe
the map's fields into a typed `VerificationResponse` (a type-assertion miss
leaves the Go zero value).  Error messages keep the code's prefix, without
the wrapped inner error's text (which belongs to the external collaborator). -/
def forwardToValis (env : Environment) (codec : JsonCodec) (net : Transport)
    (req : VerificationRequest) : ForwardOutcome VerificationResponse :=
  match codec.marshalReq req with
  | none => ⟨.error "failed to prepare request", false⟩
  | some requestBody =>
    let backendPath? : Option String :=
      if req.Model = "deepseek-ai/DeepSeek-R1" then some "/r1/verify"
      else if req.Model = "deepseek-ai/DeepSeek-V3" then some "/v3/verify"
      else none
    match backendPath? with
    | none => ⟨.error ("unsupported model: " ++ req.Model), false⟩
    | some backendPath =>
      let backendURL := env.HaproxyURL ++ backendPath
      if ¬ net.newRequestOk backendURL then
        ⟨.error "failed to create request", false⟩
      else
        match net.call backendURL [("Content-Type", "application/json")]
            requestBody with
        | none => ⟨.error "failed to send request to backend", true⟩
        | some body =>
          match codec.unmarshalMap body with
          | none => ⟨.error "failed to parse response", true⟩
          | some responseMap =>
            let responseMap :=
              if (responseMap.lookup "verified").isNone then
                mapSet (mapSet responseMap "verified" (.jbool false)) "error"
                  (.jstr "Verification service response missing 'verified' field")
              else responseMap
            let response : VerificationResponse :=
              { RequestID := req.RequestID
                Verified :=
                  match responseMap.lookup "verified" with
                  | some (.jbool b) => b
                  | _ => false
                Error :=
                  match responseMap.lookup "error" with
                  | some (.jstr s) => s
                  | _ => ""
                Cause :=
                  match responseMap.lookup "cause" with
                  | some (.jstr s) => s
                  | _ => ""
                InputTokens := responseMap.lookup "input_tokens"
                ResponseTokens := responseMap.lookup "response_tokens"
                GPUs :=
                  match responseMap.lookup "gpus" with
                  | some (.jnum x) => x
                  | _ => 0 }
            ⟨.ok response, true⟩

/-- `routes.Verify`, path-suffix revision.  `bindResult` is what `c.Bind`
produced (`none` = parse failure); `authHeader` is
`Request().Header.Get("Authorization")` (`""` when absent); `lookupKey` is the
key store.  Control flow as in the code: parse → required fields → API key →
cache probe (only for a non-empty `RequestID`; a hit whose bytes fail to
unmarshal falls through to the forward path exactly like a miss, only a
warning is logged) → `forwardToValis` → cache store (marshal failure is
logged and skips only the store) → respond.  `forwardToValis` never returns a
nil response on success, so Go's `response != nil` guard before the store is
always true here. -/
def Verify (env : Environment) (codec : JsonCodec) (net : Transport)
    (lookupKey : String → Option String) (now : Nat) (cache : CacheMap)
    (authHeader : String) (bindResult : Option VerificationRequest) :
    VerifyOutcome :=
  match bindResult with
  | none => ⟨⟨400, .errJson "Invalid request format"⟩, false, false, cache⟩
  | some request =>
    match validateRequiredFields request with
    | (missingField, true) =>
        ⟨⟨400, .errJson ("Missing required field: " ++ missingField)⟩,
          false, false, cache⟩
    | (_, false) =>
      match (validateAPIKey lookupKey authHeader).result with
      | .error e => ⟨⟨401, .errJson e⟩, false, false, cache⟩
      | .ok _ =>
        let cachedHit : Option VerificationResponse :=
          if request.RequestID ≠ "" then
            match VerificationCache.Get cache now request.RequestID with
            | (some cachedResponse, true) => codec.unmarshalResp cachedResponse
            | _ => none
          else none
        match cachedHit with
        | some response => ⟨⟨200, .respObj response⟩, false, false, cache⟩
        | none =>
          let fwd := forwardToValis env codec net request
          match fwd.result with
          | .error e =>
              ⟨⟨500, .errJson ("Verification service error: " ++ e)⟩,
                fwd.backendCalled, false, cache⟩
          | .ok response =>
            if request.RequestID ≠ "" then
              match codec.marshalResp response with
              | none =>
                  ⟨⟨200, .respObj response⟩, fwd.backendCalled, false, cache⟩
              | some responseBytes =>
                  ⟨⟨200, .respObj response⟩, fwd.backendCalled, true,
                    VerificationCache.Set cache now request.RequestID
                      responseBytes (72 * Minute)⟩
            else ⟨⟨200, .respObj response⟩, fwd.backendCalled, false, cache⟩

end PathVariant

namespace HeaderVariant

/-- `forwardToValis`, header revision: marshal the request; build
`HaproxyURL + "/verify"` and `http.NewRequest` for it; route by setting the
`x-backend-server` header to `r1` or `v3`, anything else is `unsupported
model` before any network call; POST; return the raw reply body verbatim —
this revision never parses the backend's reply. -/
def forwardToValis (env : Environment) (codec : JsonCodec) (net : Transport)
    (req : VerificationRequest) : ForwardOutcome Bytes :=
  match codec.marshalReq req with
  | none => ⟨.error "failed to prepare request", false⟩
  | some requestBody =>
    let backendURL := env.HaproxyURL ++ "/verify"
    if ¬ net.newRequestOk backendURL then
      ⟨.error "failed to create request", false⟩
    else
      let routeHeader? : Option String :=
        if req.Model = "deepseek-ai/DeepSeek-R1" then some "r1"
        else if req.Model = "deepseek-ai/DeepSeek-V3" then some "v3"
        else none
      match routeHeader? with
      | none => ⟨.error ("unsupported model: " ++ req.Model), false⟩
      | some server =>
        match net.call backendURL
            [("x-backend-server", server), ("Content-Type", "application/json")]
            requestBody with
        | none => ⟨.error "failed to send request to backend", true⟩
        | some body => ⟨.ok body, true⟩

/-- `routes.Verify`, header revision.  Same control flow as the path-suffix
revision up to the cache probe; after a miss the raw backend body is cached
directly (no marshal step — `Set` takes the bytes as returned) and streamed
to the caller verbatim with `c.JSONBlob(200, response)`.  `io.ReadAll` never
returns a nil slice on success, so Go's `response != nil` guard before the
store is always true here. -/
def Verify (env : Environment) (codec : JsonCodec) (net : Transport)
    (lookupKey : String → Option String) (now : Nat) (cache : CacheMap)
    (authHeader : String) (bindResult : Option VerificationRequest) :
    VerifyOutcome :=
  match bindResult with
  | none => ⟨⟨400, .errJson "Invalid request format"⟩, false, false, cache⟩
  | some request =>
    match validateRequiredFields request with
    | (missingField, true) =>
        ⟨⟨400, .errJson ("Missing required field: " ++ missingField)⟩,
          false, false, cache⟩
    | (_, false) =>
      match (validateAPIKey lookupKey authHeader).result with
      | .error e => ⟨⟨401, .errJson e⟩, false, false, cache⟩
      | .ok _ =>
        let cachedHit : Option VerificationResponse :=
          if request.RequestID ≠ "" then
            match VerificationCache.Get cache now request.RequestID with
            | (some cachedResponse, true) => codec.unmarshalResp cachedResponse
            | _ => none
          else none
        match cachedHit with
        | some response => ⟨⟨200, .respObj response⟩, false, false, cache⟩
        | none =>
          let fwd := forwardToValis env codec net request
          match fwd.result with
          | .error e =>
              ⟨⟨500, .errJson ("Verification service error: " ++ e)⟩,
                fwd.backendCalled, false, cache⟩
          | .ok body =>
            if request.RequestID ≠ "" then
              ⟨⟨200, .blob body⟩, fwd.backendCalled, true,
                VerificationCache.Set cache now request.RequestID body
                  (72 * Minute)⟩
            else ⟨⟨200, .blob body⟩, fwd.backendCalled, false, cache⟩

end HeaderVariant

/-- C1, counterexample to the claim as stated: `Get` does not find a key iff
an entry exists and the clock is *strictly* before its expiry.  At
`now = ExpiresAt` (here both `5`) the guard `time.Now().After(entry.ExpiresAt)`
is false, so `Get` returns `(value, true)` although `now < ExpiresAt` fails. -/
theorem C1_get_strict_before_counterexample :
    ¬ (∀ (c : CacheMap) (now : Nat) (k : String),
        (VerificationCache.Get c now k).2 = true ↔
          ∃ e, c k = some e ∧ now < e.ExpiresAt) := by
  intro h
  obtain ⟨e, he, hlt⟩ :=
    (h (singleEntryCache "r" ⟨[0], 5⟩) 5 "r").mp (by decide)
  simp [singleEntryCache] at he
  subst he
  simp at hlt

/-- C1 (amended): `Get(k)` returns `(value, true)` iff an entry for `k` exists
and `now ≤ expiresAt`; once the clock is strictly past `expiresAt`, `Get`
returns `(nil, false)` even though the entry is still physically in the map
(no `Cleanup` has run between the `Set` and this `Get`). -/
theorem C1_get_found_iff (c : CacheMap) (now : Nat) (k : String) :
    ((VerificationCache.Get c now k).2 = true ↔
      ∃ e, c k = some e ∧ now ≤ e.ExpiresAt) ∧
    (∀ e, c k = some e → e.ExpiresAt < now →
      VerificationCache.Get c now k = (none, false)) := by
  constructor
  · unfold VerificationCache.Get
    cases hck : c k with
    | none => simp
    | some e =>
      by_cases hexp : e.ExpiresAt < now
      · simp [hexp]
      · simp [hexp]
        omega
  · intro e hck hexp
    unfold VerificationCache.Get
    rw [hck]
    simp [hexp]

/-- C2: `Set(k, v, t)` stores an entry with `expiresAt = now + t`, overwriting
any existing entry for `k` (the theorem holds for every prior cache state
`c`), and an immediate `Get(k)` returns `(v, true)`. -/
theorem C2_set_then_get (c : CacheMap) (now : Nat) (k : String) (v : Bytes)
    (t : Nat) (ht : 0 < t) :
    VerificationCache.Set c now k v t k = some ⟨v, now + t⟩ ∧
    VerificationCache.Get (VerificationCache.Set c now k v t) now k
      = (some v, true) := by
  refine ⟨by simp [VerificationCache.Set], ?_⟩
  unfold VerificationCache.Get VerificationCache.Set
  simp only [if_pos rfl]
  have : ¬ (now + t < now) := by omega
  simp [this]

/-- C2 at a concrete input: the prior cache already holds an entry for `"k"`,
which the `Set` overwrites. -/
theorem C2_set_then_get_witness :
    VerificationCache.Set (singleEntryCache "k" ⟨[9], 1⟩) 10 "k" [1, 2] 3 "k"
      = some ⟨[1, 2], 13⟩ ∧
    VerificationCache.Get
      (VerificationCache.Set (singleEntryCache "k" ⟨[9], 1⟩) 10 "k" [1, 2] 3)
      10 "k" = (some [1, 2], true) :=
  C2_set_then_get (singleEntryCache "k" ⟨[9], 1⟩) 10 "k" [1, 2] 3 (by decide)

/-- C8, counterexample to the claim as stated: `Cleanup` does not remove every
entry with `expiresAt ≤ now`.  The guard is `now.After(entry.ExpiresAt)`,
which is strict, so an entry with `expiresAt = now` (here both `5`) is kept. -/
theorem C8_cleanup_at_most_counterexample :
    ¬ (∀ (c : CacheMap) (now : Nat) (k : String),
        VerificationCache.Cleanup c now k = none ↔
          (c k = none ∨ ∃ e, c k = some e ∧ e.ExpiresAt ≤ now)) := by
  intro h
  have hnone :=
    (h (singleEntryCache "r" ⟨[0], 5⟩) 5 "r").mpr
      (Or.inr ⟨⟨[0], 5⟩, by decide, le_refl 5⟩)
  simp [VerificationCache.Cleanup, singleEntryCache] at hnone

/-- C8 (amended): `Cleanup()` removes exactly the entries whose `expiresAt`
lies strictly before `now`: an entry is gone after `Cleanup` iff it was absent
or had `expiresAt < now`, and every entry with `now ≤ expiresAt` is kept
unchanged — in particular no entry whose expiry lies in the future is ever
removed. -/
theorem C8_cleanup_removes_strictly_expired (c : CacheMap) (now : Nat)
    (k : String) :
    (VerificationCache.Cleanup c now k = none ↔
      (c k = none ∨ ∃ e, c k = some e ∧ e.ExpiresAt < now)) ∧
    (∀ e, c k = some e → now ≤ e.ExpiresAt →
      VerificationCache.Cleanup c now k = some e) := by
  constructor
  · unfold VerificationCache.Cleanup
    cases hck : c k with
    | none => simp
    | some e =>
      by_cases hexp : e.ExpiresAt < now
      · simp [hexp]
      · simp [hexp]
  · intro e hck hexp
    unfold VerificationCache.Cleanup
    rw [hck]
    have : ¬ (e.ExpiresAt < now) := by omega
    simp [this]

/-! ## Concrete fixtures for witnesses and counterexamples -/

/-- An environment with the default configuration values. -/
def envTest : Environment :=
  ⟨false, "http://haproxy", "admin", "admin_api_key"⟩

/-- A codec whose every call fails; used where no JSON call should be
reached. -/
def codecNone : JsonCodec :=
  ⟨fun _ => none, fun _ => none, fun _ => none, fun _ => none⟩

/-- A transport whose every call fails; used where no network call should be
reached. -/
def netNone : Transport :=
  ⟨fun _ => false, fun _ _ _ => none⟩

/-- A key store with no rows: every credential is invalid. -/
def noKeys : String → Option String := fun _ => none

/-- A key store mapping every credential to the hotkey `"hot"`. -/
def allKeys : String → Option String := fun _ => some "hot"

/-- A request with every required field present and a non-empty request id. -/
def validRequest : VerificationRequest :=
  ⟨"deepseek-ai/DeepSeek-R1", "chat", some [], some [], "rid"⟩

/-- A request with every required field present and an empty request id. -/
def noIdRequest : VerificationRequest :=
  ⟨"deepseek-ai/DeepSeek-R1", "chat", some [], some [], ""⟩

/-- A field-wise valid request declaring a model outside the known set. -/
def unknownModelRequest : VerificationRequest :=
  ⟨"unknown-model", "chat", some [], some [], ""⟩

/-- A request whose `model` field is missing (decoded to the empty string). -/
def missingModelRequest : VerificationRequest :=
  ⟨"", "chat", some [], some [], ""⟩

/-- C5: field validation checks the four required fields in the fixed order
`model`, `request_type`, `request_params`, `raw_chunks`; the first missing
field (empty string, nil map, nil slice respectively) is the one reported,
and in both revisions the pipeline answers 400 with
`Missing required field: <name>` naming that field's JSON name. -/
theorem C5_required_field_order (request : VerificationRequest) :
    (request.Model = "" → validateRequiredFields request = ("model", true)) ∧
    (request.Model ≠ "" → request.RequestType = "" →
      validateRequiredFields request = ("request_type", true)) ∧
    (request.Model ≠ "" → request.RequestType ≠ "" →
      request.RequestParams = none →
      validateRequiredFields request = ("request_params", true)) ∧
    (request.Model ≠ "" → request.RequestType ≠ "" →
      request.RequestParams ≠ none → request.RawChunks = none →
      validateRequiredFields request = ("raw_chunks", true)) ∧
    (request.Model ≠ "" → request.RequestType ≠ "" →
      request.RequestParams ≠ none → request.RawChunks ≠ none →
      validateRequiredFields request = ("", false)) ∧
    (∀ (env : Environment) (codec : JsonCodec) (net : Transport)
        (lookupKey : String → Option String) (now : Nat) (cache : CacheMap)
        (authHeader : String) (f : String),
      validateRequiredFields request = (f, true) →
        PathVariant.Verify env codec net lookupKey now cache authHeader
            (some request) =
          ⟨⟨400, .errJson ("Missing required field: " ++ f)⟩,
            false, false, cache⟩ ∧
        HeaderVariant.Verify env codec net lookupKey now cache authHeader
            (some request) =
          ⟨⟨400, .errJson ("Missing required field: " ++ f)⟩,
            false, false, cache⟩) := by
  refine ⟨?_, ?_, ?_, ?_, ?_, ?_⟩
  · intro h1
    simp [validateRequiredFields, h1]
  · intro h1 h2
    simp [validateRequiredFields, h1, h2]
  · intro h1 h2 h3
    simp [validateRequiredFields, h1, h2, h3]
  · intro h1 h2 h3 h4
    simp [validateRequiredFields, h1, h2, h3, h4, Option.isNone_iff_eq_none]
  · intro h1 h2 h3 h4
    simp [validateRequiredFields, h1, h2, h3, h4, Option.isNone_iff_eq_none]
  · intro env codec net lookupKey now cache authHeader f hvf
    constructor
    · simp [PathVariant.Verify, hvf]
    · simp [HeaderVariant.Verify, hvf]

/-- C10: authentication reaches the key store iff splitting the
`Authorization` header on single spaces yields exactly two parts and the
first part equals `bearer` after lowercasing; every rejected shape produces
an error result before any key-store access, and the pipeline turns that
error into a 401 for any request that passed field validation. -/
theorem C10_bearer_scheme_parsing (lookupKey : String → Option String)
    (authHeader : String) :
    ((validateAPIKey lookupKey authHeader).lookupPerformed = true ↔
      ((goSplitSpace authHeader.data).length = 2 ∧
        goToLower ((goSplitSpace authHeader.data).headD []) = "bearer".data)) ∧
    ((validateAPIKey lookupKey authHeader).lookupPerformed = false →
      ∃ msg, (validateAPIKey lookupKey authHeader).result = .error msg) ∧
    (∀ (env : Environment) (codec : JsonCodec) (net : Transport) (now : Nat)
        (cache : CacheMap) (request : VerificationRequest) (e : String),
      validateRequiredFields request = ("", false) →
      validateAPIKey lookupKey authHeader = ⟨.error e, false⟩ →
        (PathVariant.Verify env codec net lookupKey now cache authHeader
            (some request)).reply = ⟨401, .errJson e⟩ ∧
        (HeaderVariant.Verify env codec net lookupKey now cache authHeader
            (some request)).reply = ⟨401, .errJson e⟩) := by
  refine ⟨?_, ?_, ?_⟩
  · by_cases hempty : authHeader = ""
    · subst hempty
      simp [validateAPIKey]
      decide
    · unfold validateAPIKey
      rw [if_neg hempty]
      rcases hsplit : goSplitSpace authHeader.data with _ | ⟨a, _ | ⟨b, _ | ⟨c, l⟩⟩⟩
      · simp
      · simp
      · by_cases hlower : goToLower a = "bearer".data
        · cases hlk : lookupKey (String.mk b) <;> simp [hlower, hlk]
        · simp [hlower]
      · simp
  · by_cases hempty : authHeader = ""
    · subst hempty
      intro _
      exact ⟨"authorization required", by simp [validateAPIKey]⟩
    · unfold validateAPIKey
      rw [if_neg hempty]
      rcases hsplit : goSplitSpace authHeader.data with _ | ⟨a, _ | ⟨b, _ | ⟨c, l⟩⟩⟩
      · intro _; exact ⟨"invalid authorization format", rfl⟩
      · intro _; exact ⟨"invalid authorization format", rfl⟩
      · by_cases hlower : goToLower a = "bearer".data
        · cases hlk : lookupKey (String.mk b) <;> simp [hlower, hlk]
        · simp [hlower]
      · intro _; exact ⟨"invalid authorization format", rfl⟩
  · intro env codec net now cache request e hvf hauth
    constructor
    · simp [PathVariant.Verify, hvf, hauth]
    · simp [HeaderVariant.Verify, hvf, hauth]

/-- C6, counterexample to the claim as stated: an invalid bearer credential
does not yield 401 regardless of payload validity.  Field validation runs
before `validateAPIKey` in both revisions, so a request whose `model` is
missing is answered 400 citing `model` even though the presented credential
(`bearer wrong` against an empty key store) is invalid. -/
theorem C6_validation_precedes_auth_counterexample :
    (validateAPIKey noKeys "bearer wrong").result = .error "invalid API key" ∧
    PathVariant.Verify envTest codecNone netNone noKeys 0 NewVerificationCache
        "bearer wrong" (some missingModelRequest) =
      ⟨⟨400, .errJson "Missing required field: model"⟩,
        false, false, NewVerificationCache⟩ ∧
    HeaderVariant.Verify envTest codecNone netNone noKeys 0
        NewVerificationCache "bearer wrong" (some missingModelRequest) =
      ⟨⟨400, .errJson "Missing required field: model"⟩,
        false, false, NewVerificationCache⟩ := by
  refine ⟨rfl, ?_, ?_⟩ <;> rfl

/-- C6 (amended): for every request that parses and passes required-field
validation, an invalid bearer credential yields 401 in both revisions, with
no backend call and no cache write; a request that fails field validation is
answered 400 before the credential is ever checked. -/
theorem C6_unauthorized_with_valid_payload (env : Environment)
    (codec : JsonCodec) (net : Transport)
    (lookupKey : String → Option String) (now : Nat) (cache : CacheMap)
    (authHeader : String) (request : VerificationRequest) (e : String)
    (hfields : validateRequiredFields request = ("", false))
    (hauth : (validateAPIKey lookupKey authHeader).result = .error e) :
    PathVariant.Verify env codec net lookupKey now cache authHeader
        (some request) = ⟨⟨401, .errJson e⟩, false, false, cache⟩ ∧
    HeaderVariant.Verify env codec net lookupKey now cache authHeader
        (some request) = ⟨⟨401, .errJson e⟩, false, false, cache⟩ := by
  constructor
  · simp [PathVariant.Verify, hfields, hauth]
  · simp [HeaderVariant.Verify, hfields, hauth]

/-- C6 at a concrete input: a fully valid payload with an invalid credential
is answered 401 by both revisions. -/
theorem C6_unauthorized_with_valid_payload_witness :
    PathVariant.Verify envTest codecNone netNone noKeys 0 NewVerificationCache
        "bearer wrong" (some validRequest) =
      ⟨⟨401, .errJson "invalid API key"⟩, false, false,
        NewVerificationCache⟩ ∧
    HeaderVariant.Verify envTest codecNone netNone noKeys 0
        NewVerificationCache "bearer wrong" (some validRequest) =
      ⟨⟨401, .errJson "invalid API key"⟩, false, false,
        NewVerificationCache⟩ :=
  C6_unauthorized_with_valid_payload envTest codecNone netNone noKeys 0
    NewVerificationCache "bearer wrong" validRequest "invalid API key"
    (by rfl) (by rfl)

/-- C7: a model outside the known two-entry set makes both forwarding
revisions fail with `unsupported model: <model>` and reach no network call;
moreover no unknown model ever reaches the transport under any codec or
transport behaviour (even when marshalling or request construction fails,
the failure comes before `client.Do`). -/
theorem C7_unknown_model_fails_before_backend (env : Environment)
    (codec : JsonCodec) (net : Transport) (req : VerificationRequest)
    (requestBody : Bytes)
    (hm1 : req.Model ≠ "deepseek-ai/DeepSeek-R1")
    (hm2 : req.Model ≠ "deepseek-ai/DeepSeek-V3")
    (hmarshal : codec.marshalReq req = some requestBody)
    (hnew : net.newRequestOk (env.HaproxyURL ++ "/verify") = true) :
    PathVariant.forwardToValis env codec net req =
      ⟨.error ("unsupported model: " ++ req.Model), false⟩ ∧
    HeaderVariant.forwardToValis env codec net req =
      ⟨.error ("unsupported model: " ++ req.Model), false⟩ ∧
    (∀ (codec' : JsonCodec) (net' : Transport),
      (PathVariant.forwardToValis env codec' net' req).backendCalled = false ∧
      (HeaderVariant.forwardToValis env codec' net' req).backendCalled
        = false) := by
  refine ⟨?_, ?_, ?_⟩
  · simp [PathVariant.forwardToValis, hmarshal, hm1, hm2]
  · simp [HeaderVariant.forwardToValis, hmarshal, hm1, hm2, hnew]
  · intro codec' net'
    constructor
    · cases hms : codec'.marshalReq req with
      | none => simp [PathVariant.forwardToValis, hms]
      | some b => simp [PathVariant.forwardToValis, hms, hm1, hm2]
    · cases hms : codec'.marshalReq req with
      | none => simp [HeaderVariant.forwardToValis, hms]
      | some b =>
        cases hnr : net'.newRequestOk (env.HaproxyURL ++ "/verify") with
        | false => simp [HeaderVariant.forwardToValis, hms, hnr]
        | true => simp [HeaderVariant.forwardToValis, hms, hnr, hm1, hm2]

/-- C7 at a concrete input: `model = "unknown-model"` with a codec that
marshals and a transport whose request construction succeeds. -/
theorem C7_unknown_model_witness :
    PathVariant.forwardToValis envTest
        ⟨fun _ => some [0], fun _ => none, fun _ => none, fun _ => none⟩
        ⟨fun _ => true, fun _ _ _ => none⟩ unknownModelRequest =
      ⟨.error ("unsupported model: " ++ "unknown-model"), false⟩ ∧
    HeaderVariant.forwardToValis envTest
        ⟨fun _ => some [0], fun _ => none, fun _ => none, fun _ => none⟩
        ⟨fun _ => true, fun _ _ _ => none⟩ unknownModelRequest =
      ⟨.error ("unsupported model: " ++ "unknown-model"), false⟩ ∧
    (∀ (codec' : JsonCodec) (net' : Transport),
      (PathVariant.forwardToValis envTest codec' net'
        unknownModelRequest).backendCalled = false ∧
      (HeaderVariant.forwardToValis envTest codec' net'
        unknownModelRequest).backendCalled = false) :=
  C7_unknown_model_fails_before_backend envTest
    ⟨fun _ => some [0], fun _ => none, fun _ => none, fun _ => none⟩
    ⟨fun _ => true, fun _ _ _ => none⟩ unknownModelRequest [0]
    (by decide) (by decide) (by rfl) (by rfl)

/-- `c` with the entry for `k` removed: the reference cache-miss state used to
state that an undeserializable hit is handled exactly like a miss. -/
def dropKey (c : CacheMap) (k : String) : CacheMap :=
  fun q => if q = k then none else c q

/-- C3: in both revisions, a cache hit whose bytes deserialize into a
`VerificationResponse` short-circuits to a 200 with the cached payload — no
backend call, no cache write, cache state untouched; a hit whose bytes fail
to deserialize makes the handler behave observably (reply, backend call,
cache write) exactly as if the entry were absent, so a cache problem is never
a pipeline failure. -/
theorem C3_cache_hit_short_circuit (env : Environment) (codec : JsonCodec)
    (net : Transport) (lookupKey : String → Option String) (now : Nat)
    (cache : CacheMap) (authHeader : String) (request : VerificationRequest)
    (hk : String) (bytes : Bytes)
    (hfields : validateRequiredFields request = ("", false))
    (hauth : (validateAPIKey lookupKey authHeader).result = .ok hk)
    (hid : request.RequestID ≠ "")
    (hget : VerificationCache.Get cache now request.RequestID
      = (some bytes, true)) :
    (∀ response, codec.unmarshalResp bytes = some response →
      PathVariant.Verify env codec net lookupKey now cache authHeader
          (some request) =
        ⟨⟨200, .respObj response⟩, false, false, cache⟩ ∧
      HeaderVariant.Verify env codec net lookupKey now cache authHeader
          (some request) =
        ⟨⟨200, .respObj response⟩, false, false, cache⟩) ∧
    (codec.unmarshalResp bytes = none →
      ((PathVariant.Verify env codec net lookupKey now cache authHeader
          (some request)).reply =
        (PathVariant.Verify env codec net lookupKey now
          (dropKey cache request.RequestID) authHeader
          (some request)).reply ∧
       (PathVariant.Verify env codec net lookupKey now cache authHeader
          (some request)).backendCalled =
        (PathVariant.Verify env codec net lookupKey now
          (dropKey cache request.RequestID) authHeader
          (some request)).backendCalled ∧
       (PathVariant.Verify env codec net lookupKey now cache authHeader
          (some request)).cacheWritten =
        (PathVariant.Verify env codec net lookupKey now
          (dropKey cache request.RequestID) authHeader
          (some request)).cacheWritten) ∧
      ((HeaderVariant.Verify env codec net lookupKey now cache authHeader
          (some request)).reply =
        (HeaderVariant.Verify env codec net lookupKey now
          (dropKey cache request.RequestID) authHeader
          (some request)).reply ∧
       (HeaderVariant.Verify env codec net lookupKey now cache authHeader
          (some request)).backendCalled =
        (HeaderVariant.Verify env codec net lookupKey now
          (dropKey cache request.RequestID) authHeader
          (some request)).backendCalled ∧
       (HeaderVariant.Verify env codec net lookupKey now cache authHeader
          (some request)).cacheWritten =
        (HeaderVariant.Verify env codec net lookupKey now
          (dropKey cache request.RequestID) authHeader
          (some request)).cacheWritten)) := by
  have hdrop : VerificationCache.Get (dropKey cache request.RequestID) now
      request.RequestID = (none, false) := by
    simp [VerificationCache.Get, dropKey]
  constructor
  · intro response hresp
    constructor
    · simp [PathVariant.Verify, hfields, hauth, hid, hget, hresp]
    · simp [HeaderVariant.Verify, hfields, hauth, hid, hget, hresp]
  · intro hresp
    constructor
    · simp only [PathVariant.Verify, hfields, hauth, hid, hget, hresp, hdrop]
      cases hfwd : (PathVariant.forwardToValis env codec net request).result
        with
      | error e => simp [hfwd, hid]
      | ok response =>
        cases hmr : codec.marshalResp response with
        | none => simp [hfwd, hmr, hid]
        | some rb => simp [hfwd, hmr, hid]
    · simp only [HeaderVariant.Verify, hfields, hauth, hid, hget, hresp,
        hdrop]
      cases hfwd : (HeaderVariant.forwardToValis env codec net request).result
        with
      | error e => simp [hfwd, hid]
      | ok body => simp [hfwd, hid]

/-- The cached response used in the C3 witness. -/
def cachedRespW : VerificationResponse := ⟨"rid", true, "", "", none, none, 0⟩

/-- A cache holding serialized bytes `[7]` for `"rid"`, expiring at 100. -/
def cacheWithRid : CacheMap := singleEntryCache "rid" ⟨[7], 100⟩

/-- A codec that deserializes exactly the cached bytes `[7]`. -/
def codecHit : JsonCodec :=
  ⟨fun _ => none, fun _ => none,
    fun b => if b = [7] then some cachedRespW else none, fun _ => none⟩

/-- C3 at a concrete input: a fresh cache hit for `"rid"` that deserializes
is returned as-is by both revisions, with no backend call and no cache
write. -/
theorem C3_cache_hit_short_circuit_witness :
    PathVariant.Verify envTest codecHit netNone allKeys 10 cacheWithRid
        "bearer k" (some validRequest) =
      ⟨⟨200, .respObj cachedRespW⟩, false, false, cacheWithRid⟩ ∧
    HeaderVariant.Verify envTest codecHit netNone allKeys 10 cacheWithRid
        "bearer k" (some validRequest) =
      ⟨⟨200, .respObj cachedRespW⟩, false, false, cacheWithRid⟩ :=
  (C3_cache_hit_short_circuit envTest codecHit netNone allKeys 10 cacheWithRid
    "bearer k" validRequest "hot" [7] (by rfl) (by rfl) (by decide)
    (by decide)).1 cachedRespW (by rfl)

/-- The backend body of the C4 scenarios: opaque bytes `[2]` that the codec
parses into a JSON object with no `verified` field. -/
def noVerifiedMap : JMap := [("cause", JVal.jstr "x")]

/-- A codec that marshals every request to `[1]` and parses exactly the
backend body `[2]` into `noVerifiedMap`. -/
def codecNoVerified : JsonCodec :=
  ⟨fun _ => some [1], fun b => if b = [2] then some noVerifiedMap else none,
    fun _ => none, fun _ => none⟩

/-- A transport whose request construction always succeeds and whose every
call returns the body `[2]`. -/
def netReturningBody : Transport := ⟨fun _ => true, fun _ _ _ => some [2]⟩

/-- C4 (amended): when the backend's reply parses as a JSON object with no
`verified` field, the path-suffix revision synthesizes `verified = false`
with the explanatory error and answers 200 — never an upstream error; the
header revision instead streams the raw backend body through verbatim with
200 and synthesizes nothing. -/
theorem C4_missing_verified_synthesized (env : Environment)
    (codec : JsonCodec) (net : Transport)
    (lookupKey : String → Option String) (now : Nat) (cache : CacheMap)
    (authHeader : String) (request : VerificationRequest) (hk : String)
    (requestBody body : Bytes) (responseMap : JMap)
    (hfields : validateRequiredFields request = ("", false))
    (hauth : (validateAPIKey lookupKey authHeader).result = .ok hk)
    (hid : request.RequestID = "")
    (hmarshal : codec.marshalReq request = some requestBody)
    (hmodel : request.Model = "deepseek-ai/DeepSeek-R1" ∨
      request.Model = "deepseek-ai/DeepSeek-V3")
    (hnew : ∀ u, net.newRequestOk u = true)
    (hcall : ∀ u h, net.call u h requestBody = some body)
    (hparse : codec.unmarshalMap body = some responseMap)
    (hnovf : responseMap.lookup "verified" = none) :
    (∃ resp,
      PathVariant.Verify env codec net lookupKey now cache authHeader
          (some request) = ⟨⟨200, .respObj resp⟩, true, false, cache⟩ ∧
      resp.Verified = false ∧
      resp.Error = "Verification service response missing 'verified' field") ∧
    HeaderVariant.Verify env codec net lookupKey now cache authHeader
        (some request) = ⟨⟨200, .blob body⟩, true, false, cache⟩ := by
  constructor
  · rcases hmodel with hm | hm <;>
    · simp only [PathVariant.Verify, PathVariant.forwardToValis, hfields,
        hauth, hid, hmarshal, hm, hnew, hcall, hparse, hnovf, mapSet]
      exact ⟨_, rfl, rfl, rfl⟩
  · rcases hmodel with hm | hm <;>
    · simp only [HeaderVariant.Verify, HeaderVariant.forwardToValis, hfields,
        hauth, hid, hmarshal, hm, hnew, hcall]
      simp

/-- C4 at a concrete input: the backend answers `[2]`, which parses to
`{"cause": "x"}` — no `verified` field.  The path-suffix revision answers 200
with `verified = false` and the synthesized error; the header revision
answers 200 with the raw body. -/
theorem C4_missing_verified_witness :
    (∃ resp,
      PathVariant.Verify envTest codecNoVerified netReturningBody allKeys 0
          NewVerificationCache "bearer k" (some noIdRequest) =
        ⟨⟨200, .respObj resp⟩, true, false, NewVerificationCache⟩ ∧
      resp.Verified = false ∧
      resp.Error = "Verification service response missing 'verified' field") ∧
    HeaderVariant.Verify envTest codecNoVerified netReturningBody allKeys 0
        NewVerificationCache "bearer k" (some noIdRequest) =
      ⟨⟨200, .blob [2]⟩, true, false, NewVerificationCache⟩ :=
  C4_missing_verified_synthesized envTest codecNoVerified netReturningBody
    allKeys 0 NewVerificationCache "bearer k" noIdRequest "hot" [1] [2]
    noVerifiedMap (by rfl) (by rfl) (by rfl) (by rfl) (Or.inl (by rfl))
    (fun _ => rfl) (fun _ _ => rfl) (by rfl) (by rfl)

/-- C4, counterexample to the claim as stated over both revisions: the same
backend reply — bytes `[2]`, parsing to a JSON object with no `verified`
field — is streamed through verbatim by the header revision with HTTP 200.
The reply's body is the raw `[2]`, not a response object carrying
`verified = false` and a synthesized error (the raw bytes parse to an object
with no `verified` key at all). -/
theorem C4_header_raw_passthrough_counterexample :
    codecNoVerified.unmarshalMap [2] = some noVerifiedMap ∧
    noVerifiedMap.lookup "verified" = none ∧
    HeaderVariant.Verify envTest codecNoVerified netReturningBody allKeys 0
        NewVerificationCache "bearer k" (some noIdRequest) =
      ⟨⟨200, .blob [2]⟩, true, false, NewVerificationCache⟩ ∧
    (match (HeaderVariant.Verify envTest codecNoVerified netReturningBody
        allKeys 0 NewVerificationCache "bearer k"
        (some noIdRequest)).reply.body with
    | RespBody.respObj _ => False
    | _ => True) :=
  ⟨rfl, rfl, rfl, trivial⟩
